import Mathlib

/-!
Formal model of the virus mutation simulator core (`simu.py`).

Randomness model: each `random.random()` draw is supplied by an oracle
`u` giving the uniform value used at a position (or at a generation and
position), and each `random.choice`/`random.choices` pick is supplied by
an oracle `pick` reduced modulo the size of the list being chosen from.
All theorems are proved for every oracle, hence for every outcome of the
random source.  Python floats are modelled as exact rationals, Python
ints as `ℤ` (mutation counts, caller-supplied sizes) and `ℕ` (loop
counts).
-/

/-- `BASES = ['A', 'T', 'C', 'G']` -/
def BASES : List Char := ['A', 'T', 'C', 'G']

/-- One loop iteration of `mutate_genome`: if the uniform draw `u` is
below `mutation_rate`, replace `base` by a `random.choice` from
`choices = [b for b in BASES if b != base]` (the pick oracle reduced
modulo `choices.length` selects the chosen index); otherwise keep
`base`. -/
def mutateBase (base : Char) (mutation_rate : ℚ) (u : ℚ) (pick : ℕ) : Char :=
  if u < mutation_rate then
    (BASES.filter (fun b => b != base)).getD
      (pick % (BASES.filter (fun b => b != base)).length) base
  else base

/-- The `for base in genome` loop of `mutate_genome`, carrying the
position index used to address the oracles. -/
def mutateFrom (mutation_rate : ℚ) (u : ℕ → ℚ) (pick : ℕ → ℕ) : ℕ → List Char → List Char
  | _, [] => []
  | i, base :: rest =>
    mutateBase base mutation_rate (u i) (pick i) ::
      mutateFrom mutation_rate u pick (i + 1) rest

/-- `mutate_genome(genome, mutation_rate)` from `simu.py`. -/
def mutate_genome (genome : List Char) (mutation_rate : ℚ)
    (u : ℕ → ℚ) (pick : ℕ → ℕ) : List Char :=
  mutateFrom mutation_rate u pick 0 genome

/-- `diff = sum(1 for a, b in zip(current_genome, new_genome) if a != b)`. -/
def hammingDiff (a b : List Char) : ℕ :=
  List.countP (fun p => p.1 != p.2) (a.zip b)

/-- The genome after `g` mutation rounds starting from `initial`
(generation `g` uses row `g` of the oracles). -/
def genomeAt (initial : List Char) (mutation_rate : ℚ)
    (u : ℕ → ℕ → ℚ) (pick : ℕ → ℕ → ℕ) : ℕ → List Char
  | 0 => initial
  | g + 1 =>
    mutate_genome (genomeAt initial mutation_rate u pick g) mutation_rate (u g) (pick g)

/-- The cumulative mutation count after `g` rounds: the running total of
per-round Hamming distances appended by `simulate_generations`. -/
def traceAt (initial : List Char) (mutation_rate : ℚ)
    (u : ℕ → ℕ → ℚ) (pick : ℕ → ℕ → ℕ) : ℕ → ℤ
  | 0 => 0
  | g + 1 =>
    traceAt initial mutation_rate u pick g +
      (hammingDiff (genomeAt initial mutation_rate u pick g)
        (genomeAt initial mutation_rate u pick (g + 1)) : ℤ)

/-- The `for _ in range(generations)` loop of `simulate_generations`:
`g` is the current generation index, `current` the current genome,
`total` the last appended cumulative count, and the result holds the
genomes and counts appended by the remaining `n` iterations. -/
def simLoop (mutation_rate : ℚ) (u : ℕ → ℕ → ℚ) (pick : ℕ → ℕ → ℕ) :
    ℕ → List Char → ℤ → ℕ → List (List Char) × List ℤ
  | _, _, _, 0 => ([], [])
  | g, current, total, n + 1 =>
    let new := mutate_genome current mutation_rate (u g) (pick g)
    let total2 := total + (hammingDiff current new : ℤ)
    let rest := simLoop mutation_rate u pick (g + 1) new total2 n
    (new :: rest.1, total2 :: rest.2)

/-- `simulate_generations(initial_genome, generations, mutation_rate)`
from `simu.py`: `genomes` starts at `[initial]`, `mutations` at `[0]`,
then the loop appends one genome and one cumulative count per round. -/
def simulate_generations (initial : List Char) (generations : ℕ) (mutation_rate : ℚ)
    (u : ℕ → ℕ → ℚ) (pick : ℕ → ℕ → ℕ) : List (List Char) × List ℤ :=
  let rest := simLoop mutation_rate u pick 0 initial 0 generations
  (initial :: rest.1, 0 :: rest.2)

/-- `generate_genome(length)` from `simu.py`:
`''.join(random.choices(BASES, k=length))`.  `length` is a Python int;
`random.choices` produces one uniform pick per draw and yields the empty
list when `k ≤ 0`, which `Int.toNat` models. -/
def generate_genome (length : ℤ) (pick : ℕ → ℕ) : List Char :=
  (List.range length.toNat).map (fun i => BASES.getD (pick i % BASES.length) 'A')

/-- `simulate_generations` called with a Python-int generation count:
`range(generations)` iterates `generations.toNat` times (empty for a
negative argument). -/
def simulate_generations_int (initial : List Char) (generations : ℤ) (mutation_rate : ℚ)
    (u : ℕ → ℕ → ℚ) (pick : ℕ → ℕ → ℕ) : List (List Char) × List ℤ :=
  simulate_generations initial generations.toNat mutation_rate u pick

/-- The `precaution_level` value set by the advisory `if/elif/else`. -/
inductive Tier where
  | High : Tier
  | Moderate : Tier
  | Low : Tier
deriving DecidableEq

/-- The advisory classification of `simu.py` (first match wins):
`mutation_total > length * 0.7 or mutation_rate > 0.3` gives High,
`elif mutation_total > length * 0.3 or mutation_rate > 0.15` gives
Moderate, `else` Low. -/
def precaution_level (mutation_total : ℤ) (length : ℕ) (mutation_rate : ℚ) : Tier :=
  if (mutation_total : ℚ) > (length : ℚ) * 0.7 ∨ mutation_rate > 0.3 then Tier.High
  else if (mutation_total : ℚ) > (length : ℚ) * 0.3 ∨ mutation_rate > 0.15 then Tier.Moderate
  else Tier.Low

/-- `new_mutation_rate` as assigned in each advisory branch. -/
def new_mutation_rate (mutation_rate : ℚ) : Tier → ℚ
  | Tier.High => max 0.01 (mutation_rate * 0.5)
  | Tier.Moderate => max 0.01 (mutation_rate * 0.7)
  | Tier.Low => mutation_rate

/-- The decay loop of the precaution block: each iteration sets
`current_mutation = max(0, current_mutation - max(1, plateau_mutation // repair_gens))`
and appends it.  Python `//` on the non-negative operands in use is
floor division, `Int.fdiv`. -/
def decaySteps (plateau_mutation : ℤ) (repair_gens : ℕ) : ℤ → ℕ → List ℤ
  | _, 0 => []
  | current, n + 1 =>
    let next := max 0 (current - max 1 (Int.fdiv plateau_mutation (repair_gens : ℤ)))
    next :: decaySteps plateau_mutation repair_gens next n

/-- The precaution re-simulation block of `simu.py` (run when
`new_mutation_rate != mutation_rate`): an active run of
`plateau_gens = generations // 2` rounds at the adjusted rate, then
`repair_gens // 2` plateau snapshots of the final active genome and
count (`repair_gens = generations - plateau_gens`), then the decay loop
over the remaining `repair_gens - (repair_gens // 2)` slots, all
concatenated. -/
def precaution_resim (initial : List Char) (generations : ℕ) (nr : ℚ)
    (u : ℕ → ℕ → ℚ) (pick : ℕ → ℕ → ℕ) : List (List Char) × List ℤ :=
  let plateau_gens := generations / 2
  let repair_gens := generations - plateau_gens
  let r2 := simulate_generations initial plateau_gens nr u pick
  let plateau_mutation := r2.2.getLastD 0
  let lastGenome := r2.1.getLastD []
  let plateau_genomes := List.replicate (repair_gens / 2) lastGenome
  let plateau_mutations := List.replicate (repair_gens / 2) plateau_mutation
  let decrease_mutations :=
    decaySteps plateau_mutation repair_gens plateau_mutation
      (repair_gens - repair_gens / 2)
  let decrease_genomes := List.replicate (repair_gens - repair_gens / 2) lastGenome
  (r2.1 ++ plateau_genomes ++ decrease_genomes,
   r2.2 ++ plateau_mutations ++ decrease_mutations)

/-- The Adaptive Precaution Engine entry point: classify, derive the
adjusted rate, and re-simulate only when the adjusted rate differs from
the input rate (`if new_mutation_rate != mutation_rate:` in `simu.py`). -/
def advise (initial : List Char) (mutation_rate : ℚ) (generations : ℕ)
    (mutation_total : ℤ) (length : ℕ)
    (u : ℕ → ℕ → ℚ) (pick : ℕ → ℕ → ℕ) :
    Option (Tier × ℚ × List (List Char) × List ℤ) :=
  let tier := precaution_level mutation_total length mutation_rate
  let nr := new_mutation_rate mutation_rate tier
  if nr ≠ mutation_rate then
    let r := precaution_resim initial generations nr u pick
    some (tier, nr, r.1, r.2)
  else
    none

/-! ### Lemmas on the mutation operator -/

theorem choices_length_pos (b : Char) : 0 < (BASES.filter (fun x => x != b)).length := by
  rcases eq_or_ne b 'A' with h | h
  · subst h
    decide
  · have hmem : 'A' ∈ BASES.filter (fun x => x != b) := by
      simp only [List.mem_filter, bne_iff_ne, ne_eq, decide_not]
      refine ⟨by decide, by simpa using Ne.symm h⟩
    exact List.length_pos.mpr (List.ne_nil_of_mem hmem)

theorem mutateBase_keep (b : Char) (r u : ℚ) (p : ℕ) (h : ¬ u < r) :
    mutateBase b r u p = b := by
  unfold mutateBase
  rw [if_neg h]

theorem mutateBase_mem_choices (b : Char) (r u : ℚ) (p : ℕ) (h : u < r) :
    mutateBase b r u p ∈ BASES.filter (fun x => x != b) := by
  unfold mutateBase
  rw [if_pos h]
  have hlt : p % (BASES.filter (fun x => x != b)).length <
      (BASES.filter (fun x => x != b)).length :=
    Nat.mod_lt _ (choices_length_pos b)
  rw [List.getD_eq_getElem _ _ hlt]
  exact List.getElem_mem hlt

theorem mem_choices_spec (x b : Char) (h : x ∈ BASES.filter (fun y => y != b)) :
    x ∈ BASES ∧ x ≠ b := by
  simpa only [List.mem_filter, bne_iff_ne, ne_eq, decide_not, Bool.not_eq_eq_eq_not,
    Bool.not_true, decide_eq_false_iff_not] using h

theorem choices_length_of_mem (b : Char) (hb : b ∈ BASES) :
    (BASES.filter (fun x => x != b)).length = 3 := by
  have : b = 'A' ∨ b = 'T' ∨ b = 'C' ∨ b = 'G' := by
    simpa [BASES] using hb
  rcases this with h | h | h | h <;> subst h <;> decide

theorem mutateBase_mem_BASES (b : Char) (r u : ℚ) (p : ℕ) (hb : b ∈ BASES) :
    mutateBase b r u p ∈ BASES := by
  by_cases h : u < r
  · exact (mem_choices_spec _ _ (mutateBase_mem_choices b r u p h)).1
  · rw [mutateBase_keep b r u p h]
    exact hb

theorem mutateFrom_length (r : ℚ) (u : ℕ → ℚ) (p : ℕ → ℕ) :
    ∀ (l : List Char) (k : ℕ), (mutateFrom r u p k l).length = l.length := by
  intro l
  induction l with
  | nil => intro k; rfl
  | cons a t ih =>
    intro k
    simp [mutateFrom, ih (k + 1)]

theorem mutate_genome_length (genome : List Char) (r : ℚ) (u : ℕ → ℚ) (p : ℕ → ℕ) :
    (mutate_genome genome r u p).length = genome.length :=
  mutateFrom_length r u p genome 0

theorem mutateFrom_getD (r : ℚ) (u : ℕ → ℚ) (p : ℕ → ℕ) :
    ∀ (l : List Char) (k j : ℕ) (d : Char), j < l.length →
      (mutateFrom r u p k l).getD j d = mutateBase (l.getD j d) r (u (k + j)) (p (k + j)) := by
  intro l
  induction l with
  | nil =>
    intro k j d h
    exact absurd h (by simp)
  | cons a t ih =>
    intro k j d h
    cases j with
    | zero => simp [mutateFrom]
    | succ j =>
      have hj : j < t.length := by simpa using h
      have h2 := ih (k + 1) j d hj
      have hk : k + 1 + j = k + (j + 1) := by omega
      rw [hk] at h2
      simpa [mutateFrom, List.getD_cons_succ] using h2

theorem mutate_genome_getD (genome : List Char) (r : ℚ) (u : ℕ → ℚ) (p : ℕ → ℕ)
    (i : ℕ) (d : Char) (h : i < genome.length) :
    (mutate_genome genome r u p).getD i d = mutateBase (genome.getD i d) r (u i) (p i) := by
  simpa using mutateFrom_getD r u p genome 0 i d h

theorem mutateFrom_mem_BASES (r : ℚ) (u : ℕ → ℚ) (p : ℕ → ℕ) :
    ∀ (l : List Char) (k : ℕ), (∀ c ∈ l, c ∈ BASES) →
      ∀ c ∈ mutateFrom r u p k l, c ∈ BASES := by
  intro l
  induction l with
  | nil =>
    intro k _ c hc
    simp [mutateFrom] at hc
  | cons a t ih =>
    intro k hl c hc
    rcases (by simpa [mutateFrom] using hc :
        c = mutateBase a r (u k) (p k) ∨ c ∈ mutateFrom r u p (k + 1) t) with h | h
    · subst h
      exact mutateBase_mem_BASES a r (u k) (p k) (hl a (by simp))
    · exact ih (k + 1) (fun x hx => hl x (by simp [hx])) c h

/-! ### Lemmas on the generation simulator -/

theorem simLoop_eq (initial : List Char) (r : ℚ) (u : ℕ → ℕ → ℚ) (p : ℕ → ℕ → ℕ) :
    ∀ (n g : ℕ),
      simLoop r u p g (genomeAt initial r u p g) (traceAt initial r u p g) n =
        ((List.range' (g + 1) n).map (genomeAt initial r u p),
         (List.range' (g + 1) n).map (traceAt initial r u p)) := by
  intro n
  induction n with
  | zero =>
    intro g
    simp [simLoop, List.range']
  | succ n ih =>
    intro g
    have hg : mutate_genome (genomeAt initial r u p g) r (u g) (p g) =
        genomeAt initial r u p (g + 1) := rfl
    have ht : traceAt initial r u p g +
        (hammingDiff (genomeAt initial r u p g) (genomeAt initial r u p (g + 1)) : ℤ) =
        traceAt initial r u p (g + 1) := rfl
    show (mutate_genome (genomeAt initial r u p g) r (u g) (p g) ::
        (simLoop r u p (g + 1) (mutate_genome (genomeAt initial r u p g) r (u g) (p g))
          (traceAt initial r u p g +
            (hammingDiff (genomeAt initial r u p g)
              (mutate_genome (genomeAt initial r u p g) r (u g) (p g)) : ℤ)) n).1,
      (traceAt initial r u p g +
          (hammingDiff (genomeAt initial r u p g)
            (mutate_genome (genomeAt initial r u p g) r (u g) (p g)) : ℤ)) ::
        (simLoop r u p (g + 1) (mutate_genome (genomeAt initial r u p g) r (u g) (p g))
          (traceAt initial r u p g +
            (hammingDiff (genomeAt initial r u p g)
              (mutate_genome (genomeAt initial r u p g) r (u g) (p g)) : ℤ)) n).2) = _
    rw [hg, ht, ih (g + 1)]
    simp [List.range']

theorem simulate_generations_eq (initial : List Char) (generations : ℕ) (r : ℚ)
    (u : ℕ → ℕ → ℚ) (p : ℕ → ℕ → ℕ) :
    simulate_generations initial generations r u p =
      ((List.range (generations + 1)).map (genomeAt initial r u p),
       (List.range (generations + 1)).map (traceAt initial r u p)) := by
  have h0g : genomeAt initial r u p 0 = initial := rfl
  have h0t : traceAt initial r u p 0 = 0 := rfl
  have h := simLoop_eq initial r u p generations 0
  rw [h0g, h0t] at h
  show (initial :: (simLoop r u p 0 initial 0 generations).1,
      (0 : ℤ) :: (simLoop r u p 0 initial 0 generations).2) = _
  rw [h]
  rw [List.range_eq_range', List.range'_succ, List.map_cons, List.map_cons, h0g, h0t]

theorem mapRange_getD {α : Type} (f : ℕ → α) (n i : ℕ) (d : α) (h : i < n) :
    ((List.range n).map f).getD i d = f i := by
  have hlen : i < ((List.range n).map f).length := by simpa using h
  rw [List.getD_eq_getElem _ _ hlen]
  simp

theorem mapRange_getLastD {α : Type} (f : ℕ → α) (n : ℕ) (d : α) :
    ((List.range (n + 1)).map f).getLastD d = f n := by
  rw [List.range_succ, List.map_append]
  simp [List.getLastD_concat]

theorem simulate_fst_length (initial : List Char) (generations : ℕ) (r : ℚ)
    (u : ℕ → ℕ → ℚ) (p : ℕ → ℕ → ℕ) :
    (simulate_generations initial generations r u p).1.length = generations + 1 := by
  rw [simulate_generations_eq]
  simp

theorem simulate_snd_length (initial : List Char) (generations : ℕ) (r : ℚ)
    (u : ℕ → ℕ → ℚ) (p : ℕ → ℕ → ℕ) :
    (simulate_generations initial generations r u p).2.length = generations + 1 := by
  rw [simulate_generations_eq]
  simp

theorem simulate_fst_getD (initial : List Char) (generations : ℕ) (r : ℚ)
    (u : ℕ → ℕ → ℚ) (p : ℕ → ℕ → ℕ) (i : ℕ) (h : i ≤ generations) :
    (simulate_generations initial generations r u p).1.getD i [] =
      genomeAt initial r u p i := by
  rw [simulate_generations_eq]
  exact mapRange_getD _ _ _ _ (by omega)

theorem simulate_snd_getD (initial : List Char) (generations : ℕ) (r : ℚ)
    (u : ℕ → ℕ → ℚ) (p : ℕ → ℕ → ℕ) (i : ℕ) (h : i ≤ generations) :
    (simulate_generations initial generations r u p).2.getD i 0 =
      traceAt initial r u p i := by
  rw [simulate_generations_eq]
  exact mapRange_getD _ _ _ _ (by omega)

theorem simulate_fst_getLastD (initial : List Char) (generations : ℕ) (r : ℚ)
    (u : ℕ → ℕ → ℚ) (p : ℕ → ℕ → ℕ) :
    (simulate_generations initial generations r u p).1.getLastD [] =
      genomeAt initial r u p generations := by
  rw [simulate_generations_eq]
  exact mapRange_getLastD _ _ _

theorem simulate_snd_getLastD (initial : List Char) (generations : ℕ) (r : ℚ)
    (u : ℕ → ℕ → ℚ) (p : ℕ → ℕ → ℕ) :
    (simulate_generations initial generations r u p).2.getLastD 0 =
      traceAt initial r u p generations := by
  rw [simulate_generations_eq]
  exact mapRange_getLastD _ _ _

theorem traceAt_le_succ (initial : List Char) (r : ℚ) (u : ℕ → ℕ → ℚ)
    (p : ℕ → ℕ → ℕ) (g : ℕ) :
    traceAt initial r u p g ≤ traceAt initial r u p (g + 1) := by
  have : (0 : ℤ) ≤ (hammingDiff (genomeAt initial r u p g)
      (genomeAt initial r u p (g + 1)) : ℤ) := Int.natCast_nonneg _
  show traceAt initial r u p g ≤ traceAt initial r u p g + _
  omega

theorem traceAt_mono (initial : List Char) (r : ℚ) (u : ℕ → ℕ → ℚ)
    (p : ℕ → ℕ → ℕ) : Monotone (traceAt initial r u p) :=
  monotone_nat_of_le_succ (traceAt_le_succ initial r u p)

theorem traceAt_nonneg (initial : List Char) (r : ℚ) (u : ℕ → ℕ → ℚ)
    (p : ℕ → ℕ → ℕ) (g : ℕ) : 0 ≤ traceAt initial r u p g := by
  have h := traceAt_mono initial r u p (Nat.zero_le g)
  simpa [traceAt] using h

theorem genomeAt_mem_BASES (initial : List Char) (r : ℚ) (u : ℕ → ℕ → ℚ)
    (p : ℕ → ℕ → ℕ) (hi : ∀ c ∈ initial, c ∈ BASES) :
    ∀ g, ∀ c ∈ genomeAt initial r u p g, c ∈ BASES := by
  intro g
  induction g with
  | zero => exact hi
  | succ g ih => exact mutateFrom_mem_BASES r (u g) (p g) (genomeAt initial r u p g) 0 ih

/-! ### Lemmas on the precaution engine -/

theorem decaySteps_length (pm : ℤ) (rg : ℕ) :
    ∀ (cur : ℤ) (n : ℕ), (decaySteps pm rg cur n).length = n := by
  intro cur n
  induction n generalizing cur with
  | zero => rfl
  | succ n ih => simp [decaySteps, ih]

theorem decaySteps_nonneg (pm : ℤ) (rg : ℕ) :
    ∀ (cur : ℤ) (n : ℕ), ∀ x ∈ decaySteps pm rg cur n, 0 ≤ x := by
  intro cur n
  induction n generalizing cur with
  | zero =>
    intro x hx
    simp [decaySteps] at hx
  | succ n ih =>
    intro x hx
    rcases (by simpa [decaySteps] using hx :
        x = max 0 (cur - max 1 (Int.fdiv pm (rg : ℤ))) ∨
          x ∈ decaySteps pm rg (max 0 (cur - max 1 (Int.fdiv pm (rg : ℤ)))) n) with h | h
    · subst h
      exact le_max_left 0 _
    · exact ih _ x h

theorem decaySteps_chain (pm : ℤ) (rg : ℕ) :
    ∀ (cur : ℤ) (n : ℕ),
      List.Chain' (fun a b => b = max 0 (a - max 1 (Int.fdiv pm (rg : ℤ))))
        (cur :: decaySteps pm rg cur n) := by
  intro cur n
  induction n generalizing cur with
  | zero => simp [decaySteps]
  | succ n ih =>
    have h := ih (max 0 (cur - max 1 (Int.fdiv pm (rg : ℤ))))
    exact List.Chain'.cons rfl h

theorem precaution_resim_fst (initial : List Char) (generations : ℕ) (nr : ℚ)
    (u : ℕ → ℕ → ℚ) (p : ℕ → ℕ → ℕ) :
    (precaution_resim initial generations nr u p).1 =
      (simulate_generations initial (generations / 2) nr u p).1 ++
        List.replicate ((generations - generations / 2) / 2)
          ((simulate_generations initial (generations / 2) nr u p).1.getLastD []) ++
        List.replicate ((generations - generations / 2) -
            (generations - generations / 2) / 2)
          ((simulate_generations initial (generations / 2) nr u p).1.getLastD []) := rfl

theorem precaution_resim_snd (initial : List Char) (generations : ℕ) (nr : ℚ)
    (u : ℕ → ℕ → ℚ) (p : ℕ → ℕ → ℕ) :
    (precaution_resim initial generations nr u p).2 =
      (simulate_generations initial (generations / 2) nr u p).2 ++
        List.replicate ((generations - generations / 2) / 2)
          ((simulate_generations initial (generations / 2) nr u p).2.getLastD 0) ++
        decaySteps ((simulate_generations initial (generations / 2) nr u p).2.getLastD 0)
          (generations - generations / 2)
          ((simulate_generations initial (generations / 2) nr u p).2.getLastD 0)
          ((generations - generations / 2) - (generations - generations / 2) / 2) := rfl

theorem precaution_resim_fst_length (initial : List Char) (generations : ℕ) (nr : ℚ)
    (u : ℕ → ℕ → ℚ) (p : ℕ → ℕ → ℕ) :
    (precaution_resim initial generations nr u p).1.length = generations + 1 := by
  rw [precaution_resim_fst]
  simp [simulate_fst_length]
  omega

theorem precaution_resim_snd_length (initial : List Char) (generations : ℕ) (nr : ℚ)
    (u : ℕ → ℕ → ℚ) (p : ℕ → ℕ → ℕ) :
    (precaution_resim initial generations nr u p).2.length = generations + 1 := by
  rw [precaution_resim_snd]
  simp [simulate_snd_length, decaySteps_length]
  omega

theorem precaution_resim_snd_nonneg (initial : List Char) (generations : ℕ) (nr : ℚ)
    (u : ℕ → ℕ → ℚ) (p : ℕ → ℕ → ℕ) :
    ∀ x ∈ (precaution_resim initial generations nr u p).2, 0 ≤ x := by
  intro x hx
  rw [precaution_resim_snd] at hx
  rcases List.mem_append.mp hx with h12 | h
  · rcases List.mem_append.mp h12 with h | h
    · rw [simulate_generations_eq] at h
      rcases List.mem_map.mp h with ⟨k, _, hk⟩
      rw [← hk]
      exact traceAt_nonneg initial nr u p k
    · have hx2 := (List.mem_replicate.mp h).2
      rw [hx2, simulate_snd_getLastD]
      exact traceAt_nonneg initial nr u p _
  · exact decaySteps_nonneg _ _ _ _ x h

/-! ### Claim theorems -/

/-- C1: for every initial genome, generation count and rate (and every
outcome of the random source), `simulate_generations` returns a history of
length `generations+1` whose entry 0 is the initial genome, and a trace of
length `generations+1` with entry 0 equal to 0, non-decreasing, and such
that consecutive trace entries differ by exactly the Hamming distance
between the corresponding consecutive history entries. -/
theorem C1_simulate_spec (initial : List Char) (generations : ℕ) (mutation_rate : ℚ)
    (u : ℕ → ℕ → ℚ) (pick : ℕ → ℕ → ℕ) (hist : List (List Char)) (trace : List ℤ)
    (h : simulate_generations initial generations mutation_rate u pick = (hist, trace)) :
    hist.length = generations + 1 ∧
    trace.length = generations + 1 ∧
    hist.getD 0 [] = initial ∧
    trace.getD 0 0 = 0 ∧
    (∀ i j, i ≤ j → j ≤ generations → trace.getD i 0 ≤ trace.getD j 0) ∧
    (∀ i, 1 ≤ i → i ≤ generations →
      trace.getD i 0 = trace.getD (i - 1) 0 +
        (hammingDiff (hist.getD (i - 1) []) (hist.getD i []) : ℤ)) := by
  have h1 : hist = (simulate_generations initial generations mutation_rate u pick).1 := by
    rw [h]
  have h2 : trace = (simulate_generations initial generations mutation_rate u pick).2 := by
    rw [h]
  subst h1
  subst h2
  refine ⟨simulate_fst_length _ _ _ _ _, simulate_snd_length _ _ _ _ _, ?_, ?_, ?_, ?_⟩
  · rw [simulate_fst_getD initial generations mutation_rate u pick 0 (Nat.zero_le _)]
    rfl
  · rw [simulate_snd_getD initial generations mutation_rate u pick 0 (Nat.zero_le _)]
    rfl
  · intro i j hij hj
    rw [simulate_snd_getD initial generations mutation_rate u pick i (le_trans hij hj),
      simulate_snd_getD initial generations mutation_rate u pick j hj]
    exact traceAt_mono initial mutation_rate u pick hij
  · intro i h1i hig
    obtain ⟨k, rfl⟩ : ∃ k, i = k + 1 := ⟨i - 1, by omega⟩
    have hk1 : k + 1 - 1 = k := by omega
    rw [hk1]
    rw [simulate_snd_getD initial generations mutation_rate u pick (k + 1) hig,
      simulate_snd_getD initial generations mutation_rate u pick k (by omega),
      simulate_fst_getD initial generations mutation_rate u pick (k + 1) hig,
      simulate_fst_getD initial generations mutation_rate u pick k (by omega)]
    rfl

/-- Witness for C1 at a concrete input. -/
theorem C1_simulate_spec_witness :
    ([['A'], ['A']] : List (List Char)).length = 1 + 1 ∧
    ([0, 0] : List ℤ).length = 1 + 1 ∧
    ([['A'], ['A']] : List (List Char)).getD 0 [] = ['A'] ∧
    ([0, 0] : List ℤ).getD 0 0 = 0 ∧
    (([0, 0] : List ℤ).getD 0 0 ≤ ([0, 0] : List ℤ).getD 1 0) ∧
    (([0, 0] : List ℤ).getD 1 0 = ([0, 0] : List ℤ).getD 0 0 +
      (hammingDiff (([['A'], ['A']] : List (List Char)).getD 0 [])
        (([['A'], ['A']] : List (List Char)).getD 1 []) : ℤ)) := by
  have h := C1_simulate_spec ['A'] 1 0 (fun _ _ => 1) (fun _ _ => 0)
    [['A'], ['A']] [0, 0] (by decide)
  exact ⟨h.1, h.2.1, h.2.2.1, h.2.2.2.1,
    h.2.2.2.2.1 0 1 (by decide) (by decide),
    h.2.2.2.2.2 1 (by decide) (by decide)⟩

/-- C4: on a genome over the alphabet, `mutate_genome` preserves the length
and, at every position, either keeps the symbol or replaces it by an element
of the 3-element list of remaining bases, so every changed symbol differs
from the original. -/
theorem C4_mutate_pointwise (genome : List Char) (mutation_rate : ℚ)
    (u : ℕ → ℚ) (pick : ℕ → ℕ) (halpha : ∀ c ∈ genome, c ∈ BASES) :
    (mutate_genome genome mutation_rate u pick).length = genome.length ∧
    ∀ i, i < genome.length →
      (mutate_genome genome mutation_rate u pick).getD i 'A' = genome.getD i 'A' ∨
      ((mutate_genome genome mutation_rate u pick).getD i 'A' ∈
          BASES.filter (fun x => x != genome.getD i 'A') ∧
        (BASES.filter (fun x => x != genome.getD i 'A')).length = 3 ∧
        (mutate_genome genome mutation_rate u pick).getD i 'A' ≠ genome.getD i 'A') := by
  refine ⟨mutate_genome_length genome mutation_rate u pick, ?_⟩
  intro i hi
  rw [mutate_genome_getD genome mutation_rate u pick i 'A' hi]
  by_cases h : u i < mutation_rate
  · right
    have hmem := mutateBase_mem_choices (genome.getD i 'A') mutation_rate (u i) (pick i) h
    have hGin : genome.getD i 'A' ∈ genome := by
      rw [List.getD_eq_getElem _ _ hi]
      exact List.getElem_mem hi
    exact ⟨hmem, choices_length_of_mem _ (halpha _ hGin), (mem_choices_spec _ _ hmem).2⟩
  · left
    rw [mutateBase_keep _ _ _ _ h]

/-- Witness for C4 at a concrete input. -/
theorem C4_mutate_pointwise_witness :
    (mutate_genome ['A'] 0 (fun _ => 1) (fun _ => 0)).length = (['A'] : List Char).length ∧
    ((mutate_genome ['A'] 0 (fun _ => 1) (fun _ => 0)).getD 0 'A' =
        (['A'] : List Char).getD 0 'A' ∨
      ((mutate_genome ['A'] 0 (fun _ => 1) (fun _ => 0)).getD 0 'A' ∈
          BASES.filter (fun x => x != (['A'] : List Char).getD 0 'A') ∧
        (BASES.filter (fun x => x != (['A'] : List Char).getD 0 'A')).length = 3 ∧
        (mutate_genome ['A'] 0 (fun _ => 1) (fun _ => 0)).getD 0 'A' ≠
          (['A'] : List Char).getD 0 'A')) := by
  have h := C4_mutate_pointwise ['A'] 0 (fun _ => 1) (fun _ => 0) (by decide)
  exact ⟨h.1, h.2 0 (by decide)⟩

/-- C5: with rate 0, `mutate_genome` is the identity for every outcome of
the random source (`random.random()` only returns values `≥ 0`). -/
theorem C5_mutate_rate_zero (genome : List Char) (u : ℕ → ℚ) (pick : ℕ → ℕ)
    (hu : ∀ i, 0 ≤ u i) : mutate_genome genome 0 u pick = genome := by
  suffices h : ∀ (l : List Char) (k : ℕ), mutateFrom 0 u pick k l = l from h genome 0
  intro l
  induction l with
  | nil => intro k; rfl
  | cons a t ih =>
    intro k
    have hk : ¬ u k < 0 := not_lt.mpr (hu k)
    simp [mutateFrom, mutateBase_keep a 0 (u k) (pick k) hk, ih (k + 1)]

/-- Witness for C5 at a concrete input. -/
theorem C5_mutate_rate_zero_witness :
    mutate_genome ['A', 'T'] 0 (fun _ => 0) (fun _ => 0) = ['A', 'T'] :=
  C5_mutate_rate_zero ['A', 'T'] (fun _ => 0) (fun _ => 0) (fun _ => le_refl 0)

/-- C6: with rate 1, `mutate_genome` changes every position and every new
symbol is an alphabet member distinct from the original, for every outcome
of the random source (`random.random()` only returns values `< 1`). -/
theorem C6_mutate_rate_one (genome : List Char) (u : ℕ → ℚ) (pick : ℕ → ℕ)
    (hu : ∀ i, u i < 1) :
    (mutate_genome genome 1 u pick).length = genome.length ∧
    ∀ i, i < genome.length →
      (mutate_genome genome 1 u pick).getD i 'A' ≠ genome.getD i 'A' ∧
      (mutate_genome genome 1 u pick).getD i 'A' ∈ BASES := by
  refine ⟨mutate_genome_length genome 1 u pick, ?_⟩
  intro i hi
  rw [mutate_genome_getD genome 1 u pick i 'A' hi]
  have hmem := mutateBase_mem_choices (genome.getD i 'A') 1 (u i) (pick i) (hu i)
  have hspec := mem_choices_spec _ _ hmem
  exact ⟨hspec.2, hspec.1⟩

/-- Witness for C6 at a concrete input. -/
theorem C6_mutate_rate_one_witness :
    (mutate_genome ['C'] 1 (fun _ => 0) (fun _ => 0)).length = (['C'] : List Char).length ∧
    ((mutate_genome ['C'] 1 (fun _ => 0) (fun _ => 0)).getD 0 'A' ≠
        (['C'] : List Char).getD 0 'A' ∧
      (mutate_genome ['C'] 1 (fun _ => 0) (fun _ => 0)).getD 0 'A' ∈ BASES) := by
  have h := C6_mutate_rate_one ['C'] (fun _ => 0) (fun _ => 0) (fun _ => zero_lt_one)
  exact ⟨h.1, h.2 0 (by decide)⟩

theorem precaution_level_eq (mt : ℤ) (len : ℕ) (r : ℚ) :
    (precaution_level mt len r = Tier.High ↔
      ((mt : ℚ) > (len : ℚ) * 0.7 ∨ r > 0.3)) ∧
    (precaution_level mt len r = Tier.Moderate ↔
      (¬((mt : ℚ) > (len : ℚ) * 0.7 ∨ r > 0.3) ∧
        ((mt : ℚ) > (len : ℚ) * 0.3 ∨ r > 0.15))) ∧
    (precaution_level mt len r = Tier.Low ↔
      (¬((mt : ℚ) > (len : ℚ) * 0.7 ∨ r > 0.3) ∧
        ¬((mt : ℚ) > (len : ℚ) * 0.3 ∨ r > 0.15))) := by
  unfold precaution_level
  split_ifs with h1 h2 <;> simp_all

/-- C3: the severity tier is first-match-wins (High on the 0.7·length or
0.30 thresholds, else Moderate on the 0.3·length or 0.15 thresholds, else
Low), the adjusted rate follows the tier, and a Low tier produces no
adjusted run. -/
theorem C3_tier_spec (mutation_total : ℤ) (len : ℕ) (mutation_rate : ℚ)
    (initial : List Char) (generations : ℕ) (u : ℕ → ℕ → ℚ) (pick : ℕ → ℕ → ℕ) :
    (precaution_level mutation_total len mutation_rate = Tier.High ↔
      ((mutation_total : ℚ) > 0.7 * (len : ℚ) ∨ mutation_rate > 0.3)) ∧
    (precaution_level mutation_total len mutation_rate = Tier.Moderate ↔
      (¬((mutation_total : ℚ) > 0.7 * (len : ℚ) ∨ mutation_rate > 0.3) ∧
        ((mutation_total : ℚ) > 0.3 * (len : ℚ) ∨ mutation_rate > 0.15))) ∧
    (precaution_level mutation_total len mutation_rate = Tier.Low ↔
      (¬((mutation_total : ℚ) > 0.7 * (len : ℚ) ∨ mutation_rate > 0.3) ∧
        ¬((mutation_total : ℚ) > 0.3 * (len : ℚ) ∨ mutation_rate > 0.15))) ∧
    new_mutation_rate mutation_rate Tier.High = max 0.01 (mutation_rate * 0.5) ∧
    new_mutation_rate mutation_rate Tier.Moderate = max 0.01 (mutation_rate * 0.7) ∧
    new_mutation_rate mutation_rate Tier.Low = mutation_rate ∧
    (precaution_level mutation_total len mutation_rate = Tier.Low →
      advise initial mutation_rate generations mutation_total len u pick = none) := by
  obtain ⟨hH, hM, hL⟩ := precaution_level_eq mutation_total len mutation_rate
  simp only [mul_comm ((len : ℚ)) (0.7 : ℚ), mul_comm ((len : ℚ)) (0.3 : ℚ)] at hH hM hL
  refine ⟨hH, hM, hL, rfl, rfl, ?_, ?_⟩
  · rfl
  intro hlow
  have hr : new_mutation_rate mutation_rate
      (precaution_level mutation_total len mutation_rate) = mutation_rate := by
    rw [hlow]
    rfl
  show (if new_mutation_rate mutation_rate
        (precaution_level mutation_total len mutation_rate) ≠ mutation_rate then
      some (precaution_level mutation_total len mutation_rate,
        new_mutation_rate mutation_rate (precaution_level mutation_total len mutation_rate),
        (precaution_resim initial generations
          (new_mutation_rate mutation_rate
            (precaution_level mutation_total len mutation_rate)) u pick).1,
        (precaution_resim initial generations
          (new_mutation_rate mutation_rate
            (precaution_level mutation_total len mutation_rate)) u pick).2)
    else none) = none
  rw [hr]
  simp

/-- Witness for C3 at a concrete input classified Low. -/
theorem C3_tier_spec_witness :
    precaution_level 0 1 0 = Tier.Low ∧
    advise ['A'] 0 0 0 1 (fun _ _ => 1) (fun _ _ => 0) = none := by
  have h := C3_tier_spec 0 1 0 ['A'] 0 (fun _ _ => 1) (fun _ _ => 0)
  have hlow : precaution_level 0 1 0 = Tier.Low := by
    rw [h.2.2.1]
    norm_num
  exact ⟨hlow, h.2.2.2.2.2.2 hlow⟩

theorem advise_high_concrete :
    advise ['A'] 2 0 0 1 (fun _ _ => 1) (fun _ _ => 0) =
      some (Tier.High, 1, [['A']], [0]) := by
  have hH : precaution_level 0 1 2 = Tier.High := by
    rw [(precaution_level_eq 0 1 2).1]
    right
    norm_num
  have hnr : new_mutation_rate 2 Tier.High = 1 := by
    unfold new_mutation_rate
    norm_num
  show (if new_mutation_rate 2 (precaution_level 0 1 2) ≠ 2 then
      some (precaution_level 0 1 2, new_mutation_rate 2 (precaution_level 0 1 2),
        (precaution_resim ['A'] 0 (new_mutation_rate 2 (precaution_level 0 1 2))
          (fun _ _ => 1) (fun _ _ => 0)).1,
        (precaution_resim ['A'] 0 (new_mutation_rate 2 (precaution_level 0 1 2))
          (fun _ _ => 1) (fun _ _ => 0)).2)
    else none) = some (Tier.High, 1, [['A']], [0])
  rw [hH, hnr]
  rw [if_pos (by norm_num : (1 : ℚ) ≠ 2)]
  rfl

/-- C2: whenever `advise` produces an adjusted run, its combined history and
trace both have length `generations + 1`, the same length as the unadjusted
run. -/
theorem C2_adjusted_lengths (initial : List Char) (mutation_rate : ℚ) (generations : ℕ)
    (mutation_total : ℤ) (len : ℕ) (u : ℕ → ℕ → ℚ) (pick : ℕ → ℕ → ℕ)
    (u0 : ℕ → ℕ → ℚ) (pick0 : ℕ → ℕ → ℕ)
    (tier : Tier) (nr : ℚ) (hist : List (List Char)) (trace : List ℤ)
    (h : advise initial mutation_rate generations mutation_total len u pick =
      some (tier, nr, hist, trace)) :
    hist.length = generations + 1 ∧
    trace.length = generations + 1 ∧
    hist.length = (simulate_generations initial generations mutation_rate u0 pick0).1.length ∧
    trace.length = (simulate_generations initial generations mutation_rate u0 pick0).2.length := by
  have h2 : (if new_mutation_rate mutation_rate
        (precaution_level mutation_total len mutation_rate) ≠ mutation_rate then
      some (precaution_level mutation_total len mutation_rate,
        new_mutation_rate mutation_rate (precaution_level mutation_total len mutation_rate),
        (precaution_resim initial generations
          (new_mutation_rate mutation_rate
            (precaution_level mutation_total len mutation_rate)) u pick).1,
        (precaution_resim initial generations
          (new_mutation_rate mutation_rate
            (precaution_level mutation_total len mutation_rate)) u pick).2)
    else none) = some (tier, nr, hist, trace) := h
  by_cases hne : new_mutation_rate mutation_rate
      (precaution_level mutation_total len mutation_rate) ≠ mutation_rate
  · rw [if_pos hne] at h2
    have h3 := Option.some.inj h2
    simp only [Prod.mk.injEq] at h3
    obtain ⟨-, -, hh, ht⟩ := h3
    subst hh
    subst ht
    refine ⟨precaution_resim_fst_length _ _ _ _ _, precaution_resim_snd_length _ _ _ _ _,
      ?_, ?_⟩
    · rw [precaution_resim_fst_length _ _ _ _ _, simulate_fst_length _ _ _ _ _]
    · rw [precaution_resim_snd_length _ _ _ _ _, simulate_snd_length _ _ _ _ _]
  · rw [if_neg hne] at h2
    exact absurd h2 (by simp)

/-- Witness for C2 at a concrete input with a High tier. -/
theorem C2_adjusted_lengths_witness :
    ([['A']] : List (List Char)).length = 0 + 1 ∧
    ([0] : List ℤ).length = 0 + 1 ∧
    ([['A']] : List (List Char)).length =
      (simulate_generations ['A'] 0 2 (fun _ _ => 1) (fun _ _ => 0)).1.length ∧
    ([0] : List ℤ).length =
      (simulate_generations ['A'] 0 2 (fun _ _ => 1) (fun _ _ => 0)).2.length :=
  C2_adjusted_lengths ['A'] 2 0 0 1 (fun _ _ => 1) (fun _ _ => 0)
    (fun _ _ => 1) (fun _ _ => 0) Tier.High 1 [['A']] [0] advise_high_concrete

/-- C8: in the decay phase, every slot applies
`current = max(0, current - max(1, plateau_total // repair_gens))` starting
from the plateau total, the decayed sequence slots all repeat the final
active-phase genome, and the whole adjusted trace is non-negative. -/
theorem C8_decay_spec (initial : List Char) (generations : ℕ) (nr : ℚ)
    (u : ℕ → ℕ → ℚ) (pick : ℕ → ℕ → ℕ) (pm : ℤ) (lastG : List Char)
    (hpm : pm = (simulate_generations initial (generations / 2) nr u pick).2.getLastD 0)
    (hL : lastG = (simulate_generations initial (generations / 2) nr u pick).1.getLastD []) :
    (decaySteps pm (generations - generations / 2) pm
        ((generations - generations / 2) - (generations - generations / 2) / 2)).length =
      (generations - generations / 2) - (generations - generations / 2) / 2 ∧
    List.Chain'
      (fun a b => b = max 0 (a - max 1 (Int.fdiv pm ((generations - generations / 2 : ℕ) : ℤ))))
      (pm :: decaySteps pm (generations - generations / 2) pm
        ((generations - generations / 2) - (generations - generations / 2) / 2)) ∧
    (precaution_resim initial generations nr u pick).1 =
      (simulate_generations initial (generations / 2) nr u pick).1 ++
        List.replicate ((generations - generations / 2) / 2) lastG ++
        List.replicate ((generations - generations / 2) - (generations - generations / 2) / 2)
          lastG ∧
    (precaution_resim initial generations nr u pick).2 =
      (simulate_generations initial (generations / 2) nr u pick).2 ++
        List.replicate ((generations - generations / 2) / 2) pm ++
        decaySteps pm (generations - generations / 2) pm
          ((generations - generations / 2) - (generations - generations / 2) / 2) ∧
    (∀ x ∈ (precaution_resim initial generations nr u pick).2, 0 ≤ x) := by
  subst hpm
  subst hL
  exact ⟨decaySteps_length _ _ _ _, decaySteps_chain _ _ _ _,
    precaution_resim_fst initial generations nr u pick,
    precaution_resim_snd initial generations nr u pick,
    precaution_resim_snd_nonneg initial generations nr u pick⟩

/-- Witness for C8 at a concrete input. -/
theorem C8_decay_spec_witness :
    (decaySteps 0 2 0 1).length = 1 ∧
    (precaution_resim ['A'] 4 0 (fun _ _ => 1) (fun _ _ => 0)).1 =
      (simulate_generations ['A'] 2 0 (fun _ _ => 1) (fun _ _ => 0)).1 ++
        List.replicate 1 ['A'] ++ List.replicate 1 ['A'] ∧
    (precaution_resim ['A'] 4 0 (fun _ _ => 1) (fun _ _ => 0)).2 =
      (simulate_generations ['A'] 2 0 (fun _ _ => 1) (fun _ _ => 0)).2 ++
        List.replicate 1 (0 : ℤ) ++ decaySteps 0 2 0 1 ∧
    (0 : ℤ) ≤ 0 := by
  have h := C8_decay_spec ['A'] 4 0 (fun _ _ => 1) (fun _ _ => 0) 0 ['A']
    (by decide) (by decide)
  exact ⟨h.1, h.2.2.1, h.2.2.2.1, h.2.2.2.2 0 (by decide)⟩

/-- C9: when `repair_gens` is 0 or 1 the plateau segment is empty, the decay
segment has 0 or 1 slots, the combined lengths are still `generations + 1`,
and with `repair_gens = 0` the decay loop runs zero iterations, so the
division by `repair_gens` is never evaluated. -/
theorem C9_small_repair (initial : List Char) (generations : ℕ) (nr : ℚ)
    (u : ℕ → ℕ → ℚ) (pick : ℕ → ℕ → ℕ)
    (h : generations - generations / 2 = 0 ∨ generations - generations / 2 = 1) :
    (generations - generations / 2) / 2 = 0 ∧
    (precaution_resim initial generations nr u pick).1.length = generations + 1 ∧
    (precaution_resim initial generations nr u pick).2.length = generations + 1 ∧
    (generations - generations / 2 = 0 →
      ∀ (pm cur : ℤ), decaySteps pm (generations - generations / 2) cur
        ((generations - generations / 2) - (generations - generations / 2) / 2) = []) := by
  refine ⟨by omega, precaution_resim_fst_length initial generations nr u pick,
    precaution_resim_snd_length initial generations nr u pick, ?_⟩
  intro h0 pm cur
  rw [h0]
  rfl

/-- Witness for C9 at `generations = 1`. -/
theorem C9_small_repair_witness :
    (1 - 1 / 2) / 2 = 0 ∧
    (precaution_resim ['A'] 1 0 (fun _ _ => 1) (fun _ _ => 0)).1.length = 1 + 1 ∧
    (precaution_resim ['A'] 1 0 (fun _ _ => 1) (fun _ _ => 0)).2.length = 1 + 1 := by
  have h := C9_small_repair ['A'] 1 0 (fun _ _ => 1) (fun _ _ => 0) (Or.inr (by decide))
  exact ⟨h.1, h.2.1, h.2.2.1⟩

/-- C7 counterexample: the entry points accept the very arguments the claim
says they reject with `InvalidArgument`: `generate_genome` with length 0 or
-5 returns the empty genome, `mutate_genome` with rate 2 (outside [0,1])
runs and substitutes normally, and a negative generation count yields the
degenerate run `([initial], [0])` — no call fails. -/
theorem C7_counterexample :
    generate_genome 0 (fun _ => 0) = [] ∧
    generate_genome (-5) (fun _ => 0) = [] ∧
    mutate_genome ['A'] 2 (fun _ => 0) (fun _ => 0) = ['T'] ∧
    simulate_generations_int ['A'] (-1) 2 (fun _ _ => 0) (fun _ _ => 0) = ([['A']], [0]) :=
  ⟨by decide, by decide, by decide, by decide⟩

/-- C7 amended: no entry point validates its arguments or raises.
`generate_genome` returns a genome of `length.toNat` symbols (empty for
`length ≤ 0`), `mutate_genome` executes for any rate and preserves length,
and `simulate_generations` with `generations ≤ 0` returns the degenerate
run `([initial], [0])`; all calls return normally. -/
theorem C7_no_validation (len : ℤ) (pgen : ℕ → ℕ)
    (genome : List Char) (mutation_rate : ℚ) (u : ℕ → ℚ) (pick : ℕ → ℕ)
    (initial : List Char) (g : ℤ) (hg : g ≤ 0)
    (u2 : ℕ → ℕ → ℚ) (pick2 : ℕ → ℕ → ℕ) :
    (generate_genome len pgen).length = len.toNat ∧
    (len ≤ 0 → generate_genome len pgen = []) ∧
    (mutate_genome genome mutation_rate u pick).length = genome.length ∧
    simulate_generations_int initial g mutation_rate u2 pick2 = ([initial], [0]) := by
  refine ⟨?_, ?_, mutate_genome_length genome mutation_rate u pick, ?_⟩
  · unfold generate_genome
    simp
  · intro hlen
    unfold generate_genome
    have h0 : len.toNat = 0 := by omega
    rw [h0]
    rfl
  · unfold simulate_generations_int
    have h0 : g.toNat = 0 := by omega
    rw [h0]
    rfl

/-- Witness for the amended C7 at concrete inputs. -/
theorem C7_no_validation_witness :
    (generate_genome 3 (fun _ => 0)).length = (3 : ℤ).toNat ∧
    ((3 : ℤ) ≤ 0 → generate_genome 3 (fun _ => 0) = []) ∧
    (mutate_genome ['A'] 2 (fun _ => 0) (fun _ => 0)).length = (['A'] : List Char).length ∧
    simulate_generations_int ['C'] (-1) 2 (fun _ _ => 0) (fun _ _ => 0) = ([['C']], [0]) :=
  C7_no_validation 3 (fun _ => 0) ['A'] 2 (fun _ => 0) (fun _ => 0) ['C'] (-1)
    (by decide) (fun _ _ => 0) (fun _ _ => 0)

/-- C10: the alphabet-closure invariant. Mutating a genome over `BASES`
yields a genome over `BASES`; generated genomes are over `BASES`; every
genome of every simulated history, and of every adjusted history, is over
`BASES`. -/
theorem C10_alphabet_closure (mutation_rate nr : ℚ) (u1 : ℕ → ℚ) (p1 : ℕ → ℕ)
    (genome : List Char) (hg : ∀ c ∈ genome, c ∈ BASES)
    (len : ℤ) (pgen : ℕ → ℕ)
    (initial : List Char) (hi : ∀ c ∈ initial, c ∈ BASES)
    (generations : ℕ) (u : ℕ → ℕ → ℚ) (pick : ℕ → ℕ → ℕ) :
    (∀ c ∈ mutate_genome genome mutation_rate u1 p1, c ∈ BASES) ∧
    (∀ c ∈ generate_genome len pgen, c ∈ BASES) ∧
    (∀ s ∈ (simulate_generations initial generations mutation_rate u pick).1,
      ∀ c ∈ s, c ∈ BASES) ∧
    (∀ s ∈ (precaution_resim initial generations nr u pick).1, ∀ c ∈ s, c ∈ BASES) := by
  have hsim : ∀ (r : ℚ) (gens : ℕ),
      ∀ s ∈ (simulate_generations initial gens r u pick).1, ∀ c ∈ s, c ∈ BASES := by
    intro r gens s hs
    rw [simulate_generations_eq] at hs
    rcases List.mem_map.mp hs with ⟨k, _, hk⟩
    rw [← hk]
    exact genomeAt_mem_BASES initial r u pick hi k
  refine ⟨mutateFrom_mem_BASES mutation_rate u1 p1 genome 0 hg, ?_, hsim mutation_rate generations, ?_⟩
  · intro c hc
    unfold generate_genome at hc
    rcases List.mem_map.mp hc with ⟨i, _, hi2⟩
    rw [← hi2]
    have hlt : pgen i % BASES.length < BASES.length := Nat.mod_lt _ (by decide)
    rw [List.getD_eq_getElem _ _ hlt]
    exact List.getElem_mem hlt
  · intro s hs
    rw [precaution_resim_fst] at hs
    have hlast : ∀ c ∈ (simulate_generations initial (generations / 2) nr u pick).1.getLastD [],
        c ∈ BASES := by
      rw [simulate_fst_getLastD]
      exact genomeAt_mem_BASES initial nr u pick hi (generations / 2)
    rcases List.mem_append.mp hs with h12 | h
    · rcases List.mem_append.mp h12 with h | h
      · exact hsim nr (generations / 2) s h
      · rw [(List.mem_replicate.mp h).2]
        exact hlast
    · rw [(List.mem_replicate.mp h).2]
      exact hlast

/-- Witness for C10 at concrete inputs. -/
theorem C10_alphabet_closure_witness :
    ('T' : Char) ∈ BASES ∧ ('A' : Char) ∈ BASES ∧ ('G' : Char) ∈ BASES := by
  have h := C10_alphabet_closure 2 0 (fun _ => 0) (fun _ => 0) ['A'] (by decide)
    1 (fun _ => 0) ['G'] (by decide) 0 (fun _ _ => 1) (fun _ _ => 0)
  exact ⟨h.1 'T' (by decide), h.2.1 'A' (by decide),
    h.2.2.1 ['G'] (by decide) 'G' (by decide)⟩

example : mutate_genome ['A'] 2 (fun _ => 0) (fun _ => 0) = ['T'] := by decide

example : simulate_generations ['A'] 1 0 (fun _ _ => 1) (fun _ _ => 0) =
    ([['A'], ['A']], [0, 0]) := by decide

example : precaution_level 8 10 0 = Tier.High := by
  unfold precaution_level
  rw [if_pos]
  left
  norm_num

example : generate_genome (-3) (fun _ => 0) = [] := by decide
